import Mathlib

/-!
Verification development for the asfsmd partial remote-ZIP extraction tool.

The definitions below are a shallow embedding of the Python sources:
* `asfsmd/core.py` — `make_patterns`, `_is_product_complete`,
  `_filter_components`, `_download`, `download_components_from_urls`;
* `asfsmd/httpio_client.py` — `HttpIOFile.open`.

External dependencies of the code (Python's `hashlib.md5`, the XML parser
used on `manifest.safe`, `urllib.parse.urlparse`) are modelled as explicit
function parameters collected in an `Env` record; the pattern-matching
primitives the code relies on (`fnmatch.fnmatch` and
`pathlib.PurePath.match`) are embedded directly.  Python calls that can
raise are modelled with `Option`/`Except` results (`none`/`error` is the
raising path).
-/

set_option autoImplicit false

namespace Asfsmd

/-! ## Shell-glob matching (`fnmatch.fnmatch`)

Python's `fnmatch.fnmatch(name, pat)` normalizes case with
`os.path.normcase` (the identity on POSIX) and then matches the whole
`name` against the regex produced by `fnmatch.translate(pat)`:
`*` matches any run of characters (including `/`), `?` matches exactly one
character, `[seq]` matches a character class (leading `!` negates; a `]`
placed first is a literal member; an unterminated `[` is a literal `[`;
`a-b` inside a class is a character range).  The matcher below implements
that language directly by recursion on the pattern.  The `fuel` argument
only bounds the recursion depth: every recursive call strictly decreases
`name.length + pattern.length`, so starting from
`name.length + pattern.length + 1` the fuel can never run out; it makes
the function structurally recursive so that proofs can evaluate it.
-/

/-- Split a character list at the first `']'`; `none` if there is none. -/
def findClose : List Char → Option (List Char × List Char)
  | [] => none
  | ']' :: rest => some ([], rest)
  | c :: rest =>
    match findClose rest with
    | none => none
    | some (body, after) => some (c :: body, after)

/-- Parse a `[...]` character class, given the characters following the
opening `[`.  Returns `(negated, body, rest)`; `none` means the class is
unterminated and the `[` is to be treated literally, as in
`fnmatch.translate`.  As there, a `!` right after `[` negates the class
and a `]` right after `[` (or `[!`) is a literal member of the class. -/
def parseClass (l : List Char) : Option (Bool × List Char × List Char) :=
  match l with
  | '!' :: ']' :: rest =>
    match findClose rest with
    | none => none
    | some (body, after) => some (true, ']' :: body, after)
  | '!' :: rest =>
    match findClose rest with
    | none => none
    | some (body, after) => some (true, body, after)
  | ']' :: rest =>
    match findClose rest with
    | none => none
    | some (body, after) => some (false, ']' :: body, after)
  | _ =>
    match findClose l with
    | none => none
    | some (body, after) => some (false, body, after)

/-- Membership of a character in a class body: `a-b` denotes a range
(matching nothing when `a > b`), every other character is a literal
member; a `-` that is first, last, or follows a range is a literal. -/
def classMatch : List Char → Char → Bool
  | a :: '-' :: b :: rest, c =>
    (a ≤ c && c ≤ b) || classMatch rest c
  | a :: rest, c => (a == c) || classMatch rest c
  | [], _ => false

/-- Core glob matcher; the `if`/`else if` chain on the pattern head
mirrors the one in `fnmatch.translate`.  See the section comment for the
role of `fuel`. -/
def fnmatchAux : Nat → List Char → List Char → Bool
  | 0, _, _ => false
  | _ + 1, name, [] => name.isEmpty
  | fuel + 1, name, p :: ps =>
    if p = '*' then
      fnmatchAux fuel name ps ||
        (match name with
         | [] => false
         | _ :: nrest => fnmatchAux fuel nrest (p :: ps))
    else if p = '?' then
      match name with
      | [] => false
      | _ :: nrest => fnmatchAux fuel nrest ps
    else if p = '[' then
      match parseClass ps with
      | none =>
        match name with
        | c :: nrest => if c = '[' then fnmatchAux fuel nrest ps else false
        | [] => false
      | some (neg, body, rest) =>
        match name with
        | [] => false
        | c :: nrest => (classMatch body c != neg) && fnmatchAux fuel nrest rest
    else
      match name with
      | [] => false
      | c :: nrest => (p == c) && fnmatchAux fuel nrest ps

/-- `fnmatch.fnmatch(name, pattern)` on POSIX (where case normalization is
the identity, so this is also `fnmatch.fnmatchcase`). -/
def fnmatch (name pattern : String) : Bool :=
  fnmatchAux (name.data.length + pattern.data.length + 1) name.data pattern.data

/-! The following lemmas justify the fuel: `findClose` and `parseClass`
strictly consume pattern characters, every recursive call of `fnmatchAux`
strictly decreases `name.length + pattern.length`, and therefore any fuel
above that sum computes the same answer — the fuel is a structural
device, not part of the matching semantics. -/

theorem findClose_length (l : List Char) :
    ∀ body after, findClose l = some (body, after) → after.length < l.length := by
  induction l with
  | nil =>
    intro body after h
    simp [findClose] at h
  | cons c rest ih =>
    intro body after h
    by_cases hc : c = ']'
    · subst hc
      simp only [findClose, if_pos rfl, Option.some.injEq, Prod.mk.injEq] at h
      obtain ⟨-, rfl⟩ := h
      simp [List.length_cons]
    · simp only [findClose, if_neg hc] at h
      cases hf : findClose rest with
      | none => rw [hf] at h; simp at h
      | some pr =>
        obtain ⟨b2, a2⟩ := pr
        rw [hf] at h
        simp only [Option.some.injEq, Prod.mk.injEq] at h
        obtain ⟨-, rfl⟩ := h
        have := ih b2 a2 hf
        simp only [List.length_cons]
        omega

theorem parseClass_length (l : List Char) (neg : Bool) (body rest : List Char)
    (h : parseClass l = some (neg, body, rest)) : rest.length < l.length := by
  unfold parseClass at h
  split at h
  · rename_i rest2
    cases hf : findClose rest2 with
    | none => rw [hf] at h; simp at h
    | some pr =>
      obtain ⟨b2, a2⟩ := pr
      rw [hf] at h
      simp only [Option.some.injEq, Prod.mk.injEq] at h
      obtain ⟨-, -, rfl⟩ := h
      have := findClose_length rest2 b2 a2 hf
      simp only [List.length_cons]
      omega
  · rename_i rest2 _
    cases hf : findClose rest2 with
    | none => rw [hf] at h; simp at h
    | some pr =>
      obtain ⟨b2, a2⟩ := pr
      rw [hf] at h
      simp only [Option.some.injEq, Prod.mk.injEq] at h
      obtain ⟨-, -, rfl⟩ := h
      have := findClose_length rest2 b2 a2 hf
      simp only [List.length_cons]
      omega
  · rename_i rest2
    cases hf : findClose rest2 with
    | none => rw [hf] at h; simp at h
    | some pr =>
      obtain ⟨b2, a2⟩ := pr
      rw [hf] at h
      simp only [Option.some.injEq, Prod.mk.injEq] at h
      obtain ⟨-, -, rfl⟩ := h
      have := findClose_length rest2 b2 a2 hf
      simp only [List.length_cons]
      omega
  · cases hf : findClose l with
    | none => rw [hf] at h; simp at h
    | some pr =>
      obtain ⟨b2, a2⟩ := pr
      rw [hf] at h
      simp only [Option.some.injEq, Prod.mk.injEq] at h
      obtain ⟨-, -, rfl⟩ := h
      exact findClose_length l b2 a2 hf

theorem fnmatchAux_star (k : Nat) (name ps : List Char) :
    fnmatchAux (k + 1) name ('*' :: ps) =
      (fnmatchAux k name ps ||
        match name with
        | [] => false
        | _ :: nrest => fnmatchAux k nrest ('*' :: ps)) := rfl

theorem fnmatchAux_qmark (k : Nat) (name ps : List Char) :
    fnmatchAux (k + 1) name ('?' :: ps) =
      (match name with
       | [] => false
       | _ :: nrest => fnmatchAux k nrest ps) := rfl

theorem fnmatchAux_class (k : Nat) (name ps : List Char) :
    fnmatchAux (k + 1) name ('[' :: ps) =
      (match parseClass ps with
       | none =>
         match name with
         | c :: nrest => if c = '[' then fnmatchAux k nrest ps else false
         | [] => false
       | some (neg, body, rest) =>
         match name with
         | [] => false
         | c :: nrest => (classMatch body c != neg) && fnmatchAux k nrest rest) :=
  rfl

theorem fnmatchAux_lit (k : Nat) (name ps : List Char) (p : Char)
    (h1 : p ≠ '*') (h2 : p ≠ '?') (h3 : p ≠ '[') :
    fnmatchAux (k + 1) name (p :: ps) =
      (match name with
       | [] => false
       | c :: nrest => (p == c) && fnmatchAux k nrest ps) := by
  simp only [fnmatchAux, if_neg h1, if_neg h2, if_neg h3]

/-- The matcher's answer does not depend on the fuel, as long as the fuel
exceeds `name.length + pattern.length`; in particular `fnmatch`'s choice
of starting fuel is irrelevant. -/
theorem fnmatchAux_fuel (f1 : Nat) :
    ∀ (f2 : Nat) (name pat : List Char),
      name.length + pat.length < f1 → name.length + pat.length < f2 →
      fnmatchAux f1 name pat = fnmatchAux f2 name pat := by
  induction f1 with
  | zero =>
    intro f2 name pat h1 _
    exact absurd h1 (by omega)
  | succ f ih =>
    intro f2 name pat h1 h2
    cases f2 with
    | zero => exact absurd h2 (by omega)
    | succ g =>
      cases pat with
      | nil => rfl
      | cons p ps =>
        by_cases hstar : p = '*'
        · subst hstar
          rw [fnmatchAux_star f, fnmatchAux_star g,
            ih g name ps
              (by simp only [List.length_cons] at h1; omega)
              (by simp only [List.length_cons] at h2; omega)]
          cases name with
          | nil => rfl
          | cons c nrest =>
            show (fnmatchAux g (c :: nrest) ps || fnmatchAux f nrest ('*' :: ps)) =
              (fnmatchAux g (c :: nrest) ps || fnmatchAux g nrest ('*' :: ps))
            rw [ih g nrest ('*' :: ps)
              (by simp only [List.length_cons] at h1 ⊢; omega)
              (by simp only [List.length_cons] at h2 ⊢; omega)]
        · by_cases hq : p = '?'
          · subst hq
            rw [fnmatchAux_qmark f, fnmatchAux_qmark g]
            cases name with
            | nil => rfl
            | cons c nrest =>
              show fnmatchAux f nrest ps = fnmatchAux g nrest ps
              exact ih g nrest ps
                (by simp only [List.length_cons] at h1 ⊢; omega)
                (by simp only [List.length_cons] at h2 ⊢; omega)
          · by_cases hb : p = '['
            · subst hb
              rw [fnmatchAux_class f, fnmatchAux_class g]
              cases hp : parseClass ps with
              | none =>
                cases name with
                | nil => rfl
                | cons c nrest =>
                  show (if c = '[' then fnmatchAux f nrest ps else false) =
                    (if c = '[' then fnmatchAux g nrest ps else false)
                  by_cases hc : c = '['
                  · simp only [if_pos hc]
                    exact ih g nrest ps
                      (by simp only [List.length_cons] at h1 ⊢; omega)
                      (by simp only [List.length_cons] at h2 ⊢; omega)
                  · simp only [if_neg hc]
              | some pr =>
                obtain ⟨neg, body, rest⟩ := pr
                cases name with
                | nil => rfl
                | cons c nrest =>
                  have hlen := parseClass_length ps neg body rest hp
                  show ((classMatch body c != neg) && fnmatchAux f nrest rest) =
                    ((classMatch body c != neg) && fnmatchAux g nrest rest)
                  rw [ih g nrest rest
                    (by simp only [List.length_cons] at h1 ⊢; omega)
                    (by simp only [List.length_cons] at h2 ⊢; omega)]
            · rw [fnmatchAux_lit f name ps p hstar hq hb,
                fnmatchAux_lit g name ps p hstar hq hb]
              cases name with
              | nil => rfl
              | cons c nrest =>
                show ((p == c) && fnmatchAux f nrest ps) =
                  ((p == c) && fnmatchAux g nrest ps)
                rw [ih g nrest ps
                  (by simp only [List.length_cons] at h1 ⊢; omega)
                  (by simp only [List.length_cons] at h2 ⊢; omega)]

/-- Any sufficiently large fuel computes `fnmatch`. -/
theorem fnmatch_eq_fuel (name pattern : String) (f : Nat)
    (h : name.data.length + pattern.data.length < f) :
    fnmatchAux f name.data pattern.data = fnmatch name pattern :=
  fnmatchAux_fuel f (name.data.length + pattern.data.length + 1)
    name.data pattern.data h (by omega)

/-! ## Path helpers (`pathlib` fragments used by the code) -/

/-- Split a character list on `/`, keeping empty segments. -/
def splitSlashAux : List Char → List Char → List String
  | [], acc => [String.mk acc.reverse]
  | '/' :: rest, acc => String.mk acc.reverse :: splitSlashAux rest []
  | c :: rest, acc => splitSlashAux rest (c :: acc)

/-- The `parts` of a relative POSIX `pathlib` path given as a string:
split on `/` and drop empty and `"."` segments, exactly the
normalization `pathlib`'s `parse_parts` performs. -/
def parseParts (s : String) : List String :=
  (splitSlashAux s.data []).filter (fun seg => !(seg == "" || seg == "."))

/-- Whether a path string is absolute (POSIX: it starts with `/`). -/
def startsWithSlash (s : String) : Bool :=
  match s.data with
  | '/' :: _ => true
  | _ => false

/-- `pathlib.PurePosixPath(parts).match(pattern)` for a relative path
given by its `parts`: the pattern is parsed into parts; an empty pattern
raises `ValueError` (modelled as `none`); an absolute pattern cannot match
a relative path; otherwise the match is right-anchored and component-wise,
each component matched with `fnmatch`-style globbing (so `*` never crosses
a `/`). -/
def pathMatch (parts : List String) (pattern : String) : Option Bool :=
  if startsWithSlash pattern then some false
  else
    let patParts := parseParts pattern
    if patParts.isEmpty then none
    else if patParts.length > parts.length then some false
    else some ((parts.reverse.zip patParts.reverse).all (fun q => fnmatch q.1 q.2))

/-- `Path(href).relative_to(".")` on the manifest `href` attribute:
raises (`none`) for an absolute path, otherwise yields the normalized
parts of the relative path. -/
def relativeToDot (href : String) : Option (List String) :=
  if startsWithSlash href then none else some (parseParts href)

/-- `path.name` of a `pathlib` path given as a string: the last
normalized component, or `""` when there is none. -/
def pyPathName (s : String) : String :=
  (parseParts s).getLast?.getD ""

/-- Index of the last `'.'` in a character list, if any. -/
def lastDotIdx : List Char → Option Nat
  | [] => none
  | c :: rest =>
    match lastDotIdx rest with
    | some i => some (i + 1)
    | none => if c == '.' then some 0 else none

/-- `pathlib`'s `suffix` of a file name: the substring from the last dot,
provided that dot is neither the first nor the last character ( so
".bashrc", "a." and "a" all have suffix `""`). -/
def pySuffix (name : String) : String :=
  match lastDotIdx name.data with
  | none => ""
  | some i =>
    if 0 < i && i < name.data.length - 1 then String.mk (name.data.drop i) else ""

/-- `Path.with_suffix(".SAFE")` on a relative path given by its parts:
raises (`none`) when the path has no name; otherwise replaces the name's
suffix (or appends when there is none) with `".SAFE"`. -/
def withSuffixSAFE (p : List String) : Option (List String) :=
  match p.getLast? with
  | none => none
  | some name =>
    if name == "" then none
    else
      let old := pySuffix name
      let nm :=
        if old == "" then name ++ ".SAFE"
        else String.mk (name.data.take (name.data.length - old.data.length)) ++ ".SAFE"
      some (p.dropLast ++ [nm])

/-- ASCII lower-casing of a string (Python `str.lower` restricted to the
ASCII header values compared by the code). -/
def lowerStr (s : String) : String :=
  String.mk (s.data.map Char.toLower)

/-- ASCII upper-casing of a string (Python `str.upper` restricted to the
ASCII checksum names compared by the code). -/
def upperStr (s : String) : String :=
  String.mk (s.data.map Char.toUpper)

/-! ## `make_patterns` (`asfsmd/core.py`) -/

/-- `make_patterns(beam, pol, cal, noise, rfi, data)`: `None` arguments
are replaced by the defaults `"*"` / `"??"`; the manifest pattern comes
first, then the annotation pattern, then the conditional calibration,
noise, RFI and measurement-data patterns, in source order. -/
def make_patterns (beam : Option String := some "*") (pol : Option String := some "??")
    (cal : Bool := false) (noise : Bool := false) (rfi : Bool := false)
    (data : Bool := false) : List String :=
  let beam := beam.getD "*"
  let pol := pol.getD "??"
  let head := "S1*.SAFE/annotation"
  let tail := "s1?-" ++ beam ++ "-???-" ++ pol ++ "-*.xml"
  ["S1*.SAFE/manifest.safe", head ++ "/" ++ tail]
    ++ (if cal then [head ++ "/calibration/calibration-" ++ tail] else [])
    ++ (if noise then [head ++ "/calibration/noise-" ++ tail] else [])
    ++ (if rfi then [head ++ "/rfi/rfi-" ++ tail] else [])
    ++ (if data then
          ["S1*.SAFE/measurement/s1?-" ++ beam ++ "-???-" ++ pol ++ "-*.tiff",
           "S1*.SAFE/s1?-" ++ beam ++ "-???-?-" ++ pol ++ "-*.dat"]
        else [])

/-- The pattern list actually used by `_is_product_complete`: the body
performs `patterns = make_patterns() if not patterns else patterns`, so an
empty (or absent) pattern list is replaced by the defaults.  (The source
executes this line inside the data-object loop, but it rebinds the same
local on the first iteration, so hoisting it is behavior-preserving.) -/
def effectivePatterns (patterns : List String) : List String :=
  if patterns.isEmpty then make_patterns else patterns

/-! ## Filesystem and environment model -/

/-- A local filesystem: a finite map from paths (normalized segment
lists) to file contents (byte lists), plus the set of directories. -/
structure FileSystem where
  files : List (List String × List Nat)
  dirs : List (List String)
deriving DecidableEq

/-- Content of the file at `p`, if `p` is a regular file. -/
def FileSystem.lookup (fs : FileSystem) (p : List String) : Option (List Nat) :=
  (fs.files.find? (fun e => e.1 == p)).map (fun e => e.2)

/-- `Path.is_file()`. -/
def FileSystem.isFile (fs : FileSystem) (p : List String) : Bool :=
  (fs.lookup p).isSome

/-- `Path.is_dir()`. -/
def FileSystem.isDir (fs : FileSystem) (p : List String) : Bool :=
  fs.dirs.contains p

/-- `Path.exists()`: true for regular files and for directories. -/
def FileSystem.pathExists (fs : FileSystem) (p : List String) : Bool :=
  fs.isFile p || fs.isDir p

/-- `open(p, "wb")` followed by writing `c`: create or truncate-and-replace. -/
def FileSystem.write (fs : FileSystem) (p : List String) (c : List Nat) : FileSystem :=
  { fs with files := (p, c) :: fs.files.filter (fun e => !(e.1 == p)) }

/-- `p.mkdir(exist_ok=True, parents=True)`: make `p` and all its
ancestors directories; files are untouched.  (The `FileExistsError`
Python raises when a non-directory occupies `p` is not modelled; in the
situations the theorems consider, the destination file exists, so its
parent chain consists of directories.) -/
def FileSystem.mkdirParents (fs : FileSystem) (p : List String) : FileSystem :=
  { fs with dirs := p.inits ++ fs.dirs }

/-- One `byteStream` element of the manifest's `dataObjectSection`, as
read by `_is_product_complete`: the `fileLocation` `href`, the declared
`size` (a Python `int`, so possibly negative in a corrupt manifest), the
`checksumName` and the checksum text. -/
structure ByteStream where
  href : String
  size : Int
  checksumName : String
  checksum : String
deriving DecidableEq

/-- External collaborators of the code, passed explicitly:
`md5hex c` is the hex digest `hashlib.md5` produces for content `c`
(the source feeds the file to `md5.update` in `block_size` chunks, which
by definition of MD5 digests the concatenation, i.e. the full content);
`parseManifest b` is the result of XML-parsing the manifest bytes `b`
into its declared byte streams (`none` = the parse raises; the source
reads the per-element attributes lazily inside the loop, so theorems
that rely on this model assume the whole manifest is well-formed);
`urlPath u` is `urllib.parse.urlparse(u).path`. -/
structure Env where
  md5hex : List Nat → String
  parseManifest : List Nat → Option (List ByteStream)
  urlPath : String → String

/-! ## `_is_product_complete` (`asfsmd/core.py`) -/

/-- The `component_path` matched against the patterns: the source builds
`path.name / relative_component_path`, i.e. the product directory's name
prefixed to the component's relative parts (a `pathlib` join with an
empty name is the identity). -/
def prefixedParts (path rel : List String) : List String :=
  match path.getLast? with
  | none => rel
  | some n => if n == "" then rel else n :: rel

/-- The inner `for pattern in patterns: if component_path.match(pattern):
break / else: continue` loop: first pattern that matches wins; a raising
`match` call (`none`) propagates. -/
def matchesAny (pats : List String) (parts : List String) : Option Bool :=
  match pats with
  | [] => some false
  | p :: rest =>
    match pathMatch parts p with
    | none => none
    | some true => some true
    | some false => matchesAny rest parts

/-- The file checks `_is_product_complete` performs on a selected
component at `path/rel`: return `False` when the file is missing, when
its on-disk size differs from the declared `size`, when the declared
checksum algorithm is not MD5 (after upper-casing), or when the MD5
digest of its full content differs from the declared checksum; otherwise
fall through to the next data object (`some true`). -/
def checkFile (env : Env) (fs : FileSystem) (path rel : List String)
    (s : ByteStream) : Option Bool :=
  match fs.lookup (path ++ rel) with
  | none => some false
  | some content =>
    if (content.length : Int) ≠ s.size then some false
    else if upperStr s.checksumName ≠ "MD5" then some false
    else if env.md5hex content ≠ s.checksum then some false
    else some true

/-- One iteration of `_is_product_complete`'s data-object loop for stream
`s`: `some true` = the iteration `continue`s (component not selected, or
all its checks pass), `some false` = the function returns `False`,
`none` = the iteration raises. -/
def checkStream (env : Env) (fs : FileSystem) (path : List String)
    (pats : List String) (s : ByteStream) : Option Bool :=
  match relativeToDot s.href with
  | none => none
  | some rel =>
    match matchesAny pats (prefixedParts path rel) with
    | none => none
    | some false => some true
    | some true => checkFile env fs path rel s

/-- The data-object loop of `_is_product_complete` over the manifest's
declared byte streams. -/
def checkStreams (env : Env) (fs : FileSystem) (path : List String)
    (pats : List String) : List ByteStream → Option Bool
  | [] => some true
  | s :: rest =>
    match checkStream env fs path pats s with
    | none => none
    | some false => some false
    | some true => checkStreams env fs path pats rest

/-- `_is_product_complete(path, patterns, block_size)`: `False` when
`path` is not a directory or `path/manifest.safe` is not a file;
otherwise parse the manifest and run the data-object loop with the
effective patterns.  `none` models a raised exception.  (`block_size`
only sets the read-chunk size and cannot change the digest, so it is not
a parameter of the model.) -/
def is_product_complete (env : Env) (fs : FileSystem) (path : List String)
    (patterns : List String) : Option Bool :=
  if fs.isDir path then
    match fs.lookup (path ++ ["manifest.safe"]) with
    | none => some false
    | some bytes =>
      match env.parseManifest bytes with
      | none => none
      | some streams => checkStreams env fs path (effectivePatterns patterns) streams
  else some false

/-! ## `_filter_components` and the download loop (`asfsmd/core.py`) -/

/-- One member of the remote archive's `zf.filelist`, with the bytes
`zf.open(info)` would stream for it. -/
structure ZipEntry where
  filename : String
  content : List Nat
deriving DecidableEq

/-- The inner `for pattern in patterns: if fnmatch(...): append; break`
loop of `_filter_components`, as a predicate on one entry name. -/
def anyMatchFn : List String → String → Bool
  | [], _ => false
  | p :: rest, name => if fnmatch name p then true else anyMatchFn rest name

/-- `_filter_components(zf, patterns)` over the archive's entry list. -/
def filter_components (filelist : List ZipEntry) (patterns : List String) :
    List ZipEntry :=
  match filelist with
  | [] => []
  | info :: rest =>
    if anyMatchFn patterns info.filename then
      info :: filter_components rest patterns
    else filter_components rest patterns

/-- The `targetdir` computed for an entry: `outdir / filename.parent`.
ZIP entry names are archive-relative POSIX paths (the ZIP standard), so
the `pathlib` join appends the entry's parent parts to `outdir`. -/
def entryTargetDir (outdir : List String) (info : ZipEntry) : List String :=
  outdir ++ (parseParts info.filename).dropLast

/-- The `outfile` computed for an entry: `targetdir / filename.name`
(a `pathlib` join with an empty name is the identity). -/
def entryOutPath (outdir : List String) (info : ZipEntry) : List String :=
  entryTargetDir outdir info ++
    (match (parseParts info.filename).getLast? with
     | none => []
     | some n => [n])

/-- The body of the per-component loop in `download_components_from_urls`:
make the target directory, then either skip the entry because `outfile`
already exists, or stream its bytes to `outfile` via `_download`.  The
Bool records whether `_download` was invoked (i.e. whether any bytes of
the entry were streamed). -/
def processEntry (outdir : List String) (fs : FileSystem) (info : ZipEntry) :
    FileSystem × Bool :=
  let outfile := entryOutPath outdir info
  let fs1 := fs.mkdirParents (entryTargetDir outdir info)
  if fs1.pathExists outfile then (fs1, false)
  else (fs1.write outfile info.content, true)

/-- The per-component loop over the selected entries. -/
def processEntries (outdir : List String) (fs : FileSystem) :
    List ZipEntry → FileSystem
  | [] => fs
  | info :: rest => processEntries outdir (processEntry outdir fs info).1 rest

/-- The remote side: which archives the client can open, as a map from
URL to the archive's entry list (`none` = opening raises). -/
structure World where
  archives : List (String × List ZipEntry)

/-- `client.open_zip_archive(url)`. -/
def World.openArchive (w : World) (url : String) : Option (List ZipEntry) :=
  (w.archives.find? (fun e => e.1 == url)).map (fun e => e.2)

/-- The product output path computed for a URL:
`(outdir / Path(urlparse(url).path).name).with_suffix(".SAFE")`;
`none` models the `ValueError` `with_suffix` raises on an empty name. -/
def deriveProductPath (env : Env) (outdir : List String) (url : String) :
    Option (List String) :=
  let nm := pyPathName (env.urlPath url)
  withSuffixSAFE (outdir ++ (if nm == "" then [] else [nm]))

/-- The body of the per-URL loop of `download_components_from_urls`:
derive the product path; if `_is_product_complete` holds, `continue`
without touching the network; otherwise open the archive (counted), filter
its entries, and run the per-component loop.  Returns the new filesystem
and the number of remote archive opens performed for this URL; `none`
models a raised exception. -/
def processUrl (env : Env) (w : World) (outdir : List String)
    (patterns : List String) (fs : FileSystem) (url : String) :
    Option (FileSystem × Nat) :=
  match deriveProductPath env outdir url with
  | none => none
  | some prodPath =>
    match is_product_complete env fs prodPath patterns with
    | none => none
    | some true => some (fs, 0)
    | some false =>
      match w.openArchive url with
      | none => none
      | some filelist =>
        some (processEntries outdir fs (filter_components filelist patterns), 1)

/-- `download_components_from_urls(urls, patterns=..., outdir=...)`:
resolve `patterns=None` to `make_patterns()`, then run the per-URL loop,
accumulating the total number of remote archive opens. -/
def download_components_from_urls (env : Env) (w : World)
    (urls : List String) (patterns : Option (List String))
    (outdir : List String) (fs : FileSystem) : Option (FileSystem × Nat) :=
  let pats := match patterns with | none => make_patterns | some ps => ps
  go pats fs urls 0
where
  go (pats : List String) (fs : FileSystem) :
      List String → Nat → Option (FileSystem × Nat)
    | [], opens => some (fs, opens)
    | url :: rest, opens =>
      match processUrl env w outdir pats fs url with
      | none => none
      | some (fs2, n) => go pats fs2 rest (opens + n)

/-! ## `HttpIOFile.open` (`asfsmd/httpio_client.py`) -/

/-- The probe response obtained by `session.get(url, stream=True)`:
`ok` is whether `raise_for_status()` passes; `headers` is the response
header multimap (`requests` looks keys up case-insensitively). -/
structure Response where
  ok : Bool
  headers : List (String × String)

/-- Case-insensitive header lookup, as in `requests`' response headers. -/
def headerLookup (hs : List (String × String)) (k : String) : Option String :=
  (hs.find? (fun h => lowerStr h.1 == lowerStr k)).map (fun h => h.2)

/-- Python `int(s)`: digits with optional single underscores between
them. -/
def pyDigits : List Char → Option Nat
  | [] => none
  | c :: rest =>
    if c.isDigit then pyDigitsGo rest (c.toNat - 48) else none
where
  pyDigitsGo : List Char → Nat → Option Nat
    | [], acc => some acc
    | '_' :: d :: rest, acc =>
      if d.isDigit then pyDigitsGo rest (acc * 10 + (d.toNat - 48)) else none
    | ['_'], _ => none
    | c :: rest, acc =>
      if c.isDigit then pyDigitsGo rest (acc * 10 + (c.toNat - 48)) else none

/-- Python `int(s)` on a string: strip surrounding whitespace, optional
sign, then digits; `none` models the raised `ValueError`. -/
def pyInt (s : String) : Option Int :=
  let cs := (s.data.dropWhile Char.isWhitespace).reverse.dropWhile Char.isWhitespace
    |>.reverse
  match cs with
  | '+' :: rest => (pyDigits rest).map (fun n => (n : Int))
  | '-' :: rest => (pyDigits rest).map (fun n => -(n : Int))
  | _ => (pyDigits cs).map (fun n => (n : Int))

/-- The distinct raising paths of `HttpIOFile.open`'s probe. -/
inductive OpenErr where
  /-- `response.raise_for_status()` raised (non-success HTTP status). -/
  | httpStatus
  /-- `KeyError` on `Content-Length`, re-raised as `HTTPIOError`. -/
  | noLength
  /-- `int()` of the `Content-Length` value raised `ValueError`. -/
  | badLength
  /-- `Accept-Ranges` missing or not `bytes`: `HTTPIOError`. -/
  | noRanges
deriving DecidableEq

/-- `HttpIOFile.open` on a fresh instance (no session yet), given the
probe response: check the status, read and parse `Content-Length` into
`self.length`, then require `Accept-Ranges` to be `bytes`
(case-insensitively).  On success the recorded total length is
returned. -/
def httpio_open (resp : Response) : Except OpenErr Int :=
  if !resp.ok then .error .httpStatus
  else
    match headerLookup resp.headers "Content-Length" with
    | none => .error .noLength
    | some v =>
      match pyInt v with
      | none => .error .badLength
      | some len =>
        if lowerStr ((headerLookup resp.headers "Accept-Ranges").getD "") ≠ "bytes" then
          .error .noRanges
        else .ok len

example : make_patterns =
    ["S1*.SAFE/manifest.safe", "S1*.SAFE/annotation/s1?-*-???-??-*.xml"] := by
  decide

example : fnmatch "S1A_X.SAFE/annotation/s1a-iw1-slc-vv-x.xml"
    "S1*.SAFE/annotation/s1?-*-???-??-*.xml" = true := by decide

example : fnmatch "S1A.SAFE/a.xml" "S1*.xml" = true := by decide

example : pathMatch ["S1A.SAFE", "a.xml"] "S1*.xml" = some false := by decide

example : pathMatch ["S1A_X.SAFE", "annotation", "s1a-iw1-slc-vv-x.xml"]
    "S1*.SAFE/annotation/s1?-*-???-??-*.xml" = some true := by decide

example : httpio_open ⟨true, [("content-length", " 100"), ("Accept-Ranges", "Bytes")]⟩
    = .ok 100 := rfl

example : pyInt "1_0" = some 10 := by decide

example : pyInt "1__0" = none := by decide

/-! ## Concrete fixtures used by the witnesses -/

/-- A manifest byte stream declaring the annotation file of the fixture
product. -/
def annStream : ByteStream := ⟨"./annotation/a.xml", 1, "MD5", "h"⟩

/-- An environment whose manifest parser yields exactly `annStream` and
whose MD5 digest is constantly `"h"`. -/
def envA : Env :=
  { md5hex := fun _ => "h"
    parseManifest := fun _ => some [annStream]
    urlPath := fun s => s }

/-- A filesystem holding the fully extracted fixture product
`out/S1A_T.SAFE`. -/
def fsA : FileSystem :=
  { files := [(["out", "S1A_T.SAFE", "manifest.safe"], [0]),
              (["out", "S1A_T.SAFE", "annotation", "a.xml"], [7])]
    dirs := [["out", "S1A_T.SAFE"]] }

/-- The fixture pattern list: the manifest plus the annotation XMLs. -/
def patsA : List String := ["S1*.SAFE/manifest.safe", "S1*.SAFE/annotation/*.xml"]

example : is_product_complete envA fsA ["out", "S1A_T.SAFE"] patsA = some true := by
  decide

example : deriveProductPath envA ["out"] "/p/S1A_T.zip" = some ["out", "S1A_T.SAFE"] := by
  decide

/-! ## Claim C4 -/

/-- The first-match inner loop of `_filter_components` agrees with a
logical OR over the pattern list. -/
theorem anyMatchFn_eq_any (pats : List String) (name : String) :
    anyMatchFn pats name = pats.any (fun p => fnmatch name p) := by
  induction pats with
  | nil => rfl
  | cons p rest ih => cases h : fnmatch name p <;> simp [anyMatchFn, h, ih]

/-- Claim C4: `_filter_components(zf, patterns)` returns exactly the
subsequence of the archive's entry list whose full entry name
fnmatch-matches at least one of the patterns (logical OR); input order is
preserved (the result is a sublist of the input), and an empty pattern
list selects nothing. -/
theorem filter_components_spec (filelist : List ZipEntry) (patterns : List String) :
    filter_components filelist patterns =
      filelist.filter (fun i => patterns.any (fun p => fnmatch i.filename p)) ∧
    filter_components filelist [] = [] ∧
    List.Sublist (filter_components filelist patterns) filelist := by
  have h : ∀ (l : List ZipEntry) (ps : List String),
      filter_components l ps = l.filter (fun i => ps.any (fun p => fnmatch i.filename p)) := by
    intro l ps
    induction l with
    | nil => rfl
    | cons i rest ih =>
      rw [filter_components, anyMatchFn_eq_any, ih, List.filter_cons]
  refine ⟨h _ _, ?_, ?_⟩
  · rw [h]
    simp
  · rw [h]
    exact List.filter_sublist _

/-! ## Claim C5 -/

/-- Claim C5: `make_patterns()` with all defaults returns exactly the
manifest pattern and the all-beam/all-polarization annotation pattern,
and the manifest pattern is included for every argument combination. -/
theorem make_patterns_default_two_and_manifest_always :
    make_patterns =
      ["S1*.SAFE/manifest.safe", "S1*.SAFE/annotation/s1?-*-???-??-*.xml"] ∧
    ∀ (beam pol : Option String) (cal noise rfi data : Bool),
      "S1*.SAFE/manifest.safe" ∈ make_patterns beam pol cal noise rfi data := by
  refine ⟨by decide, ?_⟩
  intro beam pol cal noise rfi data
  simp [make_patterns]

/-! ## Claim C10 -/

/-- Claim C10: `make_patterns` normalizes `None` filter values to their
wildcard defaults: with any flag combination, passing `None` for beam and
polarization returns the same list as passing `"*"` and `"??"`. -/
theorem make_patterns_none_defaults (cal noise rfi data : Bool) :
    make_patterns none none cal noise rfi data =
      make_patterns (some "*") (some "??") cal noise rfi data := rfl

/-! ## Claim C9 -/

/-- Claim C9: the matching relation of `_is_product_complete`
(`pathlib.Path.match` on the directory-name-prefixed component path,
where `*` does not cross `/`) differs extensionally from the one of
`_filter_components` (`fnmatch` on the flat entry name, where `*` does
cross `/`): the file `out/S1A.SAFE/a.xml` — archive entry
`"S1A.SAFE/a.xml"` — is selected by the filter's relation for pattern
`"S1*.xml"` but not by the completeness check's. -/
theorem completeness_match_ne_filter_match :
    anyMatchFn ["S1*.xml"] "S1A.SAFE/a.xml" = true ∧
    matchesAny ["S1*.xml"] (prefixedParts ["out", "S1A.SAFE"] ["a.xml"]) = some false := by
  decide

/-! ## Claim C6 -/

/-- Claim C6 counterexample: a probe response carrying both a
`Content-Length` of `"100"` and `Accept-Ranges: bytes` on which
`HttpIOFile.open` nevertheless fails, because `raise_for_status()`
raises first (non-success HTTP status).  This refutes the claim's
"when both are present, open succeeds". -/
theorem httpio_open_claim_counterexample :
    headerLookup (Response.mk false
      [("Content-Length", "100"), ("Accept-Ranges", "bytes")]).headers
      "Content-Length" = some "100" ∧
    lowerStr ((headerLookup (Response.mk false
      [("Content-Length", "100"), ("Accept-Ranges", "bytes")]).headers
      "Accept-Ranges").getD "") = "bytes" ∧
    httpio_open (Response.mk false
      [("Content-Length", "100"), ("Accept-Ranges", "bytes")]) =
      .error .httpStatus := by
  exact ⟨by decide, by decide, rfl⟩

/-- Claim C6 (amended): opening fails whenever the probe response lacks a
`Content-Length` header whose value parses as an integer (the header is
absent, or present but `int()` raises on its value), or its
`Accept-Ranges` header does not advertise byte ranges; when both are
present, the `Content-Length` value parses as an integer, and the probe
status is successful, open succeeds and records that integer as the
total length. -/
theorem httpio_open_amended (resp : Response) :
    (headerLookup resp.headers "Content-Length" = none →
      ∃ e, httpio_open resp = .error e) ∧
    (∀ v, headerLookup resp.headers "Content-Length" = some v →
      pyInt v = none →
      ∃ e, httpio_open resp = .error e) ∧
    (lowerStr ((headerLookup resp.headers "Accept-Ranges").getD "") ≠ "bytes" →
      ∃ e, httpio_open resp = .error e) ∧
    (∀ v n, resp.ok = true →
      headerLookup resp.headers "Content-Length" = some v →
      pyInt v = some n →
      lowerStr ((headerLookup resp.headers "Accept-Ranges").getD "") = "bytes" →
      httpio_open resp = .ok n) := by
  refine ⟨?_, ?_, ?_, ?_⟩
  · intro h
    cases hok : resp.ok with
    | false => exact ⟨.httpStatus, by simp [httpio_open, hok]⟩
    | true => exact ⟨.noLength, by simp [httpio_open, hok, h]⟩
  · intro v hcl hint
    cases hok : resp.ok with
    | false => exact ⟨.httpStatus, by simp [httpio_open, hok]⟩
    | true => exact ⟨.badLength, by simp [httpio_open, hok, hcl, hint]⟩
  · intro h
    cases hok : resp.ok with
    | false => exact ⟨.httpStatus, by simp [httpio_open, hok]⟩
    | true =>
      cases hcl : headerLookup resp.headers "Content-Length" with
      | none => exact ⟨.noLength, by simp [httpio_open, hok, hcl]⟩
      | some v =>
        cases hint : pyInt v with
        | none => exact ⟨.badLength, by simp [httpio_open, hok, hcl, hint]⟩
        | some len => exact ⟨.noRanges, by simp [httpio_open, hok, hcl, hint, h]⟩
  · intro v n hok hcl hint har
    simp [httpio_open, hok, hcl, hint, har]

/-- Claim C6 witness: a concrete well-behaved probe response on which the
amended success case applies. -/
theorem httpio_open_amended_witness :
    httpio_open ⟨true, [("Content-Length", "100"), ("Accept-Ranges", "bytes")]⟩ =
      .ok 100 :=
  (httpio_open_amended ⟨true, [("Content-Length", "100"), ("Accept-Ranges", "bytes")]⟩).2.2.2
    "100" 100 rfl (by decide) (by decide) (by decide)

/-! ## Claim C8

Helper machinery: the seven possible patterns are pairwise distinct for
every beam/polarization choice, because patterns from different groups
end in different characters (`e` for the manifest, `l` for the annotation
family, `f` for `.tiff`, `t` for `.dat`), and patterns within the
annotation family share the same tail but have constant prefixes of four
different lengths. -/

/-- Last character of a string, if any. -/
def lastCh (s : String) : Option Char := s.data.getLast?

theorem lastCh_append (s t : String) (h : t.data ≠ []) :
    lastCh (s ++ t) = lastCh t := by
  simp [lastCh, String.data_append, List.getLast?_append_of_ne_nil _ h]

theorem ne_of_lastCh {s t : String} (h : lastCh s ≠ lastCh t) : s ≠ t :=
  fun he => h (he ▸ rfl)

theorem ne_of_length {s t : String} (h : s.length ≠ t.length) : s ≠ t :=
  fun he => h (he ▸ rfl)

theorem tail_data_ne (b p : String) :
    ("s1?-" ++ b ++ "-???-" ++ p ++ "-*.xml").data ≠ [] := by
  intro hcontra
  have h := congrArg List.length hcontra
  simp [String.data_append] at h

theorem lastCh_tail (b p : String) :
    lastCh ("s1?-" ++ b ++ "-???-" ++ p ++ "-*.xml") = some 'l' := by
  have h : ("-*.xml" : String).data ≠ [] := by decide
  rw [lastCh_append _ _ h]
  decide

theorem lastCh_prefix_tail (s b p : String) :
    lastCh (s ++ ("s1?-" ++ b ++ "-???-" ++ p ++ "-*.xml")) = some 'l' := by
  rw [lastCh_append _ _ (tail_data_ne b p), lastCh_tail]

theorem lastCh_d1 (b p : String) :
    lastCh ("S1*.SAFE/measurement/s1?-" ++ b ++ "-???-" ++ p ++ "-*.tiff") =
      some 'f' := by
  have h : ("-*.tiff" : String).data ≠ [] := by decide
  rw [lastCh_append _ _ h]
  decide

theorem lastCh_d2 (b p : String) :
    lastCh ("S1*.SAFE/s1?-" ++ b ++ "-???-?-" ++ p ++ "-*.dat") = some 't' := by
  have h : ("-*.dat" : String).data ≠ [] := by decide
  rw [lastCh_append _ _ h]
  decide

theorem len_slash : ("/" : String).length = 1 := rfl

theorem len_calcal : ("/calibration/calibration-" : String).length = 25 := rfl

theorem len_calnoi : ("/calibration/noise-" : String).length = 19 := rfl

theorem len_rfirfi : ("/rfi/rfi-" : String).length = 9 := rfl

/-- With every flag enabled, the seven generated patterns are pairwise
distinct, for every beam and polarization string. -/
theorem make_patterns_full_nodup (b p : String) :
    (make_patterns (some b) (some p) true true true true).Nodup := by
  have hshow : make_patterns (some b) (some p) true true true true =
      ["S1*.SAFE/manifest.safe",
       "S1*.SAFE/annotation" ++ "/" ++ ("s1?-" ++ b ++ "-???-" ++ p ++ "-*.xml"),
       "S1*.SAFE/annotation" ++ "/calibration/calibration-" ++
         ("s1?-" ++ b ++ "-???-" ++ p ++ "-*.xml"),
       "S1*.SAFE/annotation" ++ "/calibration/noise-" ++
         ("s1?-" ++ b ++ "-???-" ++ p ++ "-*.xml"),
       "S1*.SAFE/annotation" ++ "/rfi/rfi-" ++
         ("s1?-" ++ b ++ "-???-" ++ p ++ "-*.xml"),
       "S1*.SAFE/measurement/s1?-" ++ b ++ "-???-" ++ p ++ "-*.tiff",
       "S1*.SAFE/s1?-" ++ b ++ "-???-?-" ++ p ++ "-*.dat"] := rfl
  rw [hshow]
  simp only [List.nodup_cons, List.mem_cons, List.not_mem_nil, not_or,
    List.nodup_nil, and_true, or_false]
  repeat' apply And.intro
  all_goals
    first
    | exact not_false
    | (apply ne_of_lastCh
       simp only [lastCh_prefix_tail, lastCh_d1, lastCh_d2]
       decide)
    | (apply ne_of_length
       simp only [String.length_append, len_slash, len_calcal, len_calnoi,
         len_rfirfi]
       omega)

/-- Every flag combination produces a sublist of the all-flags pattern
list, in the same order. -/
theorem make_patterns_sublist_full (beam pol : Option String)
    (cal noise rfi data : Bool) :
    List.Sublist (make_patterns beam pol cal noise rfi data)
      (make_patterns beam pol true true true true) := by
  simp only [make_patterns]
  refine List.Sublist.append
    (List.Sublist.append
      (List.Sublist.append
        (List.Sublist.append (List.Sublist.refl _) ?_) ?_) ?_) ?_
  · cases cal <;> simp
  · cases noise <;> simp
  · cases rfi <;> simp
  · cases data <;> simp

/-- Claim C8: `make_patterns` is a pure function of its arguments (it is
embedded as a Lean function, so determinism and absence of side effects
are inherent), and for every beam, polarization and flag combination the
returned pattern list contains no duplicates. -/
theorem make_patterns_nodup (beam pol : Option String)
    (cal noise rfi data : Bool) :
    (make_patterns beam pol cal noise rfi data).Nodup := by
  apply List.Nodup.sublist (make_patterns_sublist_full beam pol cal noise rfi data)
  have h : make_patterns beam pol true true true true =
      make_patterns (some (beam.getD "*")) (some (pol.getD "??"))
        true true true true := by
    cases beam <;> cases pol <;> rfl
  rw [h]
  exact make_patterns_full_nodup _ _

/-! ## Claims C2 and C3: the completeness checker -/

/-- Well-formedness of one manifest stream relative to the active
patterns: its `href` is relative (so `relative_to(".")` does not raise)
and matching it against the patterns evaluates without raising (no empty
pattern is consulted before a match). -/
def StreamEvals (pats path : List String) (s : ByteStream) : Prop :=
  ∃ rel, relativeToDot s.href = some rel ∧
    ∃ b, matchesAny pats (prefixedParts path rel) = some b

/-- Unfolding `checkStream` once the `href` is known to be relative. -/
theorem checkStream_of_rel (env : Env) (fs : FileSystem)
    (path pats : List String) (s : ByteStream) (rel : List String)
    (hrel : relativeToDot s.href = some rel) :
    checkStream env fs path pats s =
      (match matchesAny pats (prefixedParts path rel) with
       | none => none
       | some false => some true
       | some true => checkFile env fs path rel s) := by
  unfold checkStream
  rw [hrel]

/-- A selected stream's iteration runs the file checks. -/
theorem checkStream_sel (env : Env) (fs : FileSystem)
    (path pats : List String) (s : ByteStream) (rel : List String)
    (hrel : relativeToDot s.href = some rel)
    (hm : matchesAny pats (prefixedParts path rel) = some true) :
    checkStream env fs path pats s = checkFile env fs path rel s := by
  rw [checkStream_of_rel env fs path pats s rel hrel, hm]

/-- An unselected stream's iteration just continues. -/
theorem checkStream_unsel (env : Env) (fs : FileSystem)
    (path pats : List String) (s : ByteStream) (rel : List String)
    (hrel : relativeToDot s.href = some rel)
    (hm : matchesAny pats (prefixedParts path rel) = some false) :
    checkStream env fs path pats s = some true := by
  rw [checkStream_of_rel env fs path pats s rel hrel, hm]

/-- The file checks of a selected component never raise. -/
theorem checkFile_ne_none (env : Env) (fs : FileSystem)
    (path rel : List String) (s : ByteStream) :
    checkFile env fs path rel s ≠ none := by
  unfold checkFile
  cases fs.lookup (path ++ rel) with
  | none => simp
  | some content =>
    by_cases h1 : (content.length : Int) ≠ s.size
    · simp [h1]
    · by_cases h2 : upperStr s.checksumName ≠ "MD5"
      · simp [h1, h2]
      · by_cases h3 : env.md5hex content ≠ s.checksum
        · simp [h1, h2, h3]
        · simp [h1, h2, h3]

/-- A well-formed stream's loop iteration never raises. -/
theorem checkStream_ne_none (env : Env) (fs : FileSystem)
    (path pats : List String) (s : ByteStream)
    (h : StreamEvals pats path s) :
    checkStream env fs path pats s ≠ none := by
  obtain ⟨rel, hrel, b, hm⟩ := h
  cases b with
  | false =>
    rw [checkStream_unsel env fs path pats s rel hrel hm]
    simp
  | true =>
    rw [checkStream_sel env fs path pats s rel hrel hm]
    exact checkFile_ne_none env fs path rel s

/-- If some member stream makes its iteration return `False` and no
iteration raises, the whole loop returns `False`. -/
theorem checkStreams_eq_false (env : Env) (fs : FileSystem)
    (path pats : List String) (streams : List ByteStream)
    (hwf : ∀ t ∈ streams, checkStream env fs path pats t ≠ none)
    (s : ByteStream) (hs : s ∈ streams)
    (hfalse : checkStream env fs path pats s = some false) :
    checkStreams env fs path pats streams = some false := by
  induction streams with
  | nil => cases hs
  | cons t rest ih =>
    rcases List.mem_cons.mp hs with heq | hmem
    · subst heq
      simp [checkStreams, hfalse]
    · cases ht : checkStream env fs path pats t with
      | none => exact absurd ht (hwf t (List.mem_cons_self t rest))
      | some b =>
        cases b with
        | false => simp [checkStreams, ht]
        | true =>
          simp only [checkStreams, ht]
          exact ih (fun u hu => hwf u (List.mem_cons_of_mem t hu)) hmem

/-- A selected stream that is missing, wrongly sized, wrongly checksummed
or declared with a non-MD5 algorithm makes its iteration return
`False`. -/
theorem checkStream_false_of_violation (env : Env) (fs : FileSystem)
    (path pats : List String) (s : ByteStream) (rel : List String)
    (hrel : relativeToDot s.href = some rel)
    (hsel : matchesAny pats (prefixedParts path rel) = some true)
    (hbad : fs.lookup (path ++ rel) = none ∨
      (∃ content, fs.lookup (path ++ rel) = some content ∧
        ((content.length : Int) ≠ s.size ∨ env.md5hex content ≠ s.checksum)) ∨
      upperStr s.checksumName ≠ "MD5") :
    checkStream env fs path pats s = some false := by
  rw [checkStream_sel env fs path pats s rel hrel hsel]
  unfold checkFile
  rcases hbad with h | ⟨content, hc, hv⟩ | h
  · rw [h]
  · rcases hv with hv | hv
    · simp [hc, hv]
    · by_cases hlen : (content.length : Int) ≠ s.size
      · simp [hc, hlen]
      · by_cases halg : upperStr s.checksumName ≠ "MD5"
        · simp [hc, hlen, halg]
        · simp [hc, hlen, halg, hv]
  · cases hl : fs.lookup (path ++ rel) with
    | none => simp [hl]
    | some content =>
      by_cases hlen : (content.length : Int) ≠ s.size
      · simp [hl, hlen]
      · simp [hl, hlen, h]

/-- Shared glue for the per-stream cases of claim C2: under a readable,
parseable manifest whose streams all evaluate, a selected violating
stream forces `_is_product_complete` to return `False`. -/
theorem is_product_complete_false_of_stream (env : Env) (fs : FileSystem)
    (path patterns : List String) (bytes : List Nat)
    (streams : List ByteStream) (s : ByteStream) (rel : List String)
    (hm : fs.lookup (path ++ ["manifest.safe"]) = some bytes)
    (hp : env.parseManifest bytes = some streams)
    (hwf : ∀ t ∈ streams, StreamEvals (effectivePatterns patterns) path t)
    (hs : s ∈ streams)
    (hrel : relativeToDot s.href = some rel)
    (hsel : matchesAny (effectivePatterns patterns) (prefixedParts path rel) =
      some true)
    (hbad : fs.lookup (path ++ rel) = none ∨
      (∃ content, fs.lookup (path ++ rel) = some content ∧
        ((content.length : Int) ≠ s.size ∨ env.md5hex content ≠ s.checksum)) ∨
      upperStr s.checksumName ≠ "MD5") :
    is_product_complete env fs path patterns = some false := by
  by_cases hd : fs.isDir path
  · simp only [is_product_complete, hd, if_true, hm, hp]
    exact checkStreams_eq_false env fs path (effectivePatterns patterns) streams
      (fun t ht => checkStream_ne_none env fs path _ t (hwf t ht)) s hs
      (checkStream_false_of_violation env fs path _ s rel hrel hsel hbad)
  · simp [is_product_complete, hd]

/-- Claim C2: `_is_product_complete` returns `False` when the product
directory does not exist; when `manifest.safe` inside it is not a file;
and, provided the manifest is readable and every declared stream's
matching evaluates, when a pattern-selected declared component is
missing, has a size different from the declared one, has an MD5 digest
different from the declared checksum (with matching size), or is
declared with a checksum algorithm other than MD5 (returning `False`
rather than raising). -/
theorem is_product_complete_false_cases (env : Env) (fs : FileSystem)
    (path patterns : List String) :
    (fs.isDir path = false →
      is_product_complete env fs path patterns = some false) ∧
    (fs.lookup (path ++ ["manifest.safe"]) = none →
      is_product_complete env fs path patterns = some false) ∧
    (∀ bytes streams s rel,
      fs.lookup (path ++ ["manifest.safe"]) = some bytes →
      env.parseManifest bytes = some streams →
      (∀ t ∈ streams, StreamEvals (effectivePatterns patterns) path t) →
      s ∈ streams →
      relativeToDot s.href = some rel →
      matchesAny (effectivePatterns patterns) (prefixedParts path rel) =
        some true →
      fs.lookup (path ++ rel) = none →
      is_product_complete env fs path patterns = some false) ∧
    (∀ bytes streams s rel content,
      fs.lookup (path ++ ["manifest.safe"]) = some bytes →
      env.parseManifest bytes = some streams →
      (∀ t ∈ streams, StreamEvals (effectivePatterns patterns) path t) →
      s ∈ streams →
      relativeToDot s.href = some rel →
      matchesAny (effectivePatterns patterns) (prefixedParts path rel) =
        some true →
      fs.lookup (path ++ rel) = some content →
      (content.length : Int) ≠ s.size →
      is_product_complete env fs path patterns = some false) ∧
    (∀ bytes streams s rel content,
      fs.lookup (path ++ ["manifest.safe"]) = some bytes →
      env.parseManifest bytes = some streams →
      (∀ t ∈ streams, StreamEvals (effectivePatterns patterns) path t) →
      s ∈ streams →
      relativeToDot s.href = some rel →
      matchesAny (effectivePatterns patterns) (prefixedParts path rel) =
        some true →
      fs.lookup (path ++ rel) = some content →
      (content.length : Int) = s.size →
      env.md5hex content ≠ s.checksum →
      is_product_complete env fs path patterns = some false) ∧
    (∀ bytes streams s rel,
      fs.lookup (path ++ ["manifest.safe"]) = some bytes →
      env.parseManifest bytes = some streams →
      (∀ t ∈ streams, StreamEvals (effectivePatterns patterns) path t) →
      s ∈ streams →
      relativeToDot s.href = some rel →
      matchesAny (effectivePatterns patterns) (prefixedParts path rel) =
        some true →
      upperStr s.checksumName ≠ "MD5" →
      is_product_complete env fs path patterns = some false) := by
  refine ⟨?_, ?_, ?_, ?_, ?_, ?_⟩
  · intro hd
    simp [is_product_complete, hd]
  · intro hmf
    by_cases hd : fs.isDir path
    · simp [is_product_complete, hd, hmf]
    · simp [is_product_complete, hd]
  · intro bytes streams s rel hm hp hwf hs hrel hsel hmiss
    exact is_product_complete_false_of_stream env fs path patterns bytes streams
      s rel hm hp hwf hs hrel hsel (Or.inl hmiss)
  · intro bytes streams s rel content hm hp hwf hs hrel hsel hc hlen
    exact is_product_complete_false_of_stream env fs path patterns bytes streams
      s rel hm hp hwf hs hrel hsel (Or.inr (Or.inl ⟨content, hc, Or.inl hlen⟩))
  · intro bytes streams s rel content hm hp hwf hs hrel hsel hc _ hmd5
    exact is_product_complete_false_of_stream env fs path patterns bytes streams
      s rel hm hp hwf hs hrel hsel (Or.inr (Or.inl ⟨content, hc, Or.inr hmd5⟩))
  · intro bytes streams s rel hm hp hwf hs hrel hsel halg
    exact is_product_complete_false_of_stream env fs path patterns bytes streams
      s rel hm hp hwf hs hrel hsel (Or.inr (Or.inr halg))

/-- A manifest stream declaring the fixture annotation file with a
non-MD5 checksum algorithm. -/
def annStreamSha : ByteStream := ⟨"./annotation/a.xml", 1, "SHA1", "h"⟩

/-- Like `envA`, but the manifest declares a SHA1 checksum. -/
def envB : Env :=
  { md5hex := fun _ => "h"
    parseManifest := fun _ => some [annStreamSha]
    urlPath := fun s => s }

/-- Claim C2 witness: the fixture product with a manifest declaring a
SHA1 checksum is reported incomplete (the non-MD5 case applied at a
concrete input). -/
theorem is_product_complete_false_cases_witness :
    is_product_complete envB fsA ["out", "S1A_T.SAFE"] patsA = some false :=
  (is_product_complete_false_cases envB fsA ["out", "S1A_T.SAFE"] patsA).2.2.2.2.2
    [0] [annStreamSha] annStreamSha ["annotation", "a.xml"]
    (by decide) rfl
    (fun t ht => by
      rw [List.mem_singleton] at ht
      subst ht
      exact ⟨["annotation", "a.xml"], by decide, true, by decide⟩)
    (List.mem_singleton.mpr rfl) (by decide) (by decide) (by decide)

/-- Claim C3: a declared component that matches none of the active
patterns is ignored entirely by the completeness loop: deleting it from
the manifest's declared streams does not change the result, whatever its
size, checksum, or on-disk state. -/
theorem checkStreams_ignores_unselected (env : Env) (fs : FileSystem)
    (path pats : List String) (pre post : List ByteStream) (s : ByteStream)
    (rel : List String)
    (hrel : relativeToDot s.href = some rel)
    (hns : matchesAny pats (prefixedParts path rel) = some false) :
    checkStreams env fs path pats (pre ++ s :: post) =
      checkStreams env fs path pats (pre ++ post) := by
  have hskip : checkStream env fs path pats s = some true :=
    checkStream_unsel env fs path pats s rel hrel hns
  induction pre with
  | nil => simp [checkStreams, hskip]
  | cons t rest ih =>
    simp only [List.cons_append, checkStreams]
    cases ht : checkStream env fs path pats t with
    | none => rfl
    | some b => cases b <;> simp [ih]

/-- A manifest stream declaring a measurement file that is absent from
the fixture filesystem. -/
def measStream : ByteStream := ⟨"./measurement/m.tiff", 5, "MD5", "q"⟩

/-- Like `envA`, but the manifest also declares the (absent) measurement
file. -/
def envC : Env :=
  { md5hex := fun _ => "h"
    parseManifest := fun _ => some [annStream, measStream]
    urlPath := fun s => s }

/-- Claim C3 witness: with only annotation patterns active, the fixture
manifest declaring both the annotation XML and an absent measurement
file yields the same loop result as without the measurement entry, and
the product is reported complete. -/
theorem checkStreams_ignores_unselected_witness :
    checkStreams envC fsA ["out", "S1A_T.SAFE"] patsA [annStream, measStream] =
      checkStreams envC fsA ["out", "S1A_T.SAFE"] patsA [annStream] ∧
    is_product_complete envC fsA ["out", "S1A_T.SAFE"] patsA = some true :=
  ⟨checkStreams_ignores_unselected envC fsA ["out", "S1A_T.SAFE"] patsA
      [annStream] [] measStream ["measurement", "m.tiff"] (by decide) (by decide),
    by decide⟩

/-! ## Claim C1 -/

/-- Claim C1: when the completeness check reports the derived local
product as complete for the given patterns, the per-URL pass of
`download_components_from_urls` skips to the next URL before
`open_zip_archive`: it performs zero remote archive opens and leaves the
filesystem unchanged; in particular a whole run over just that URL — a
second run over an already fully extracted product — opens no archive. -/
theorem processUrl_skips_open_when_complete (env : Env) (w : World)
    (outdir patterns : List String) (fs : FileSystem) (url : String)
    (prodPath : List String)
    (hderive : deriveProductPath env outdir url = some prodPath)
    (hcomplete : is_product_complete env fs prodPath patterns = some true) :
    processUrl env w outdir patterns fs url = some (fs, 0) ∧
    download_components_from_urls env w [url] (some patterns) outdir fs =
      some (fs, 0) := by
  have h1 : processUrl env w outdir patterns fs url = some (fs, 0) := by
    simp [processUrl, hderive, hcomplete]
  refine ⟨h1, ?_⟩
  simp [download_components_from_urls, download_components_from_urls.go, h1]

/-- Claim C1 witness: the fully extracted, checksum-valid fixture product
is skipped with zero opens — even though the remote world cannot open the
URL at all, showing no archive open is attempted. -/
theorem processUrl_skips_open_when_complete_witness :
    processUrl envA ⟨[]⟩ ["out"] patsA fsA "/p/S1A_T.zip" = some (fsA, 0) ∧
    download_components_from_urls envA ⟨[]⟩ ["/p/S1A_T.zip"] (some patsA)
      ["out"] fsA = some (fsA, 0) :=
  processUrl_skips_open_when_complete envA ⟨[]⟩ ["out"] patsA fsA
    "/p/S1A_T.zip" ["out", "S1A_T.SAFE"] (by decide) (by decide)

/-! ## Claim C7 -/

/-- Making directories preserves file contents. -/
theorem lookup_mkdirParents (fs : FileSystem) (p q : List String) :
    (fs.mkdirParents p).lookup q = fs.lookup q := rfl

/-- Making directories preserves path existence. -/
theorem pathExists_mkdirParents (fs : FileSystem) (p q : List String)
    (h : fs.pathExists q = true) :
    (fs.mkdirParents p).pathExists q = true := by
  simp only [FileSystem.pathExists, FileSystem.mkdirParents, FileSystem.isFile,
    FileSystem.isDir, FileSystem.lookup, Bool.or_eq_true] at h ⊢
  rcases h with h | h
  · exact Or.inl h
  · refine Or.inr ?_
    simp at h ⊢
    exact Or.inr h

/-- Claim C7: during extraction, an entry whose computed destination file
already exists before the entry is processed is skipped: `_download` is
not invoked (no bytes of the entry are streamed, no content
verification), the filesystem change is exactly the `mkdir` of the
target directory, and the existing destination file's content is left
unchanged. -/
theorem processEntry_skips_existing (outdir : List String) (fs : FileSystem)
    (info : ZipEntry)
    (h : fs.pathExists (entryOutPath outdir info) = true) :
    processEntry outdir fs info =
      (fs.mkdirParents (entryTargetDir outdir info), false) ∧
    (processEntry outdir fs info).1.lookup (entryOutPath outdir info) =
      fs.lookup (entryOutPath outdir info) ∧
    (processEntry outdir fs info).2 = false := by
  have h2 : (fs.mkdirParents (entryTargetDir outdir info)).pathExists
      (entryOutPath outdir info) = true :=
    pathExists_mkdirParents fs (entryTargetDir outdir info)
      (entryOutPath outdir info) h
  have hres : processEntry outdir fs info =
      (fs.mkdirParents (entryTargetDir outdir info), false) := by
    simp [processEntry, h2]
  refine ⟨hres, ?_, ?_⟩
  · rw [hres]
    rfl
  · rw [hres]

/-- A filesystem already holding the fixture destination file. -/
def fsW : FileSystem := ⟨[(["o", "A.SAFE", "x.xml"], [1])], []⟩

/-- An archive entry whose destination collides with the existing fixture
file but carries different bytes. -/
def infoW : ZipEntry := ⟨"A.SAFE/x.xml", [9, 9]⟩

/-- Claim C7 witness: processing the colliding entry over the fixture
filesystem only creates directories, streams nothing, and leaves the
existing file's one-byte content in place. -/
theorem processEntry_skips_existing_witness :
    processEntry ["o"] fsW infoW =
      (fsW.mkdirParents (entryTargetDir ["o"] infoW), false) ∧
    (processEntry ["o"] fsW infoW).1.lookup (entryOutPath ["o"] infoW) =
      fsW.lookup (entryOutPath ["o"] infoW) ∧
    (processEntry ["o"] fsW infoW).2 = false :=
  processEntry_skips_existing ["o"] fsW infoW (by decide)

end Asfsmd
